import Mathlib

/-!
# Report resolution and argument splitting of the trivy plugin

A shallow embedding of `pkg/common/common.go`:

* `convertK8sReportToReport` (the flattener),
* `parseJsonStrict`, `readAndParseJson`, `ReadReport` (the strict decode with
  its single fallback),
* `RetrievePluginArguments` (the command-line splitter called from `main`).

Go code with effects is written in explicit state-passing style over a `World`
that holds what the program cannot see in advance (the outcome of each
`os.Open`, and what `encoding/json` does with a stream) together with the
trace of the calls made so far.
-/

set_option autoImplicit false

namespace TrivyPlugin

/-! ## Errors -/

/-- A Go `error` value, as far as this package can observe one: it is either
the package variable `ErrorJsonUnknownField` (compared by identity at
`common.go:37`) or some other error value, of which only the text returned by
`Error()` is ever used (`strings.HasPrefix(err.Error(), ...)`, `%v`). -/
inductive GoError where
  | ErrorJsonUnknownField : GoError
  | other (msg : String) : GoError
  deriving DecidableEq, Repr

/-- The method `Error()`. `ErrorJsonUnknownField` is
`errors.New("json: unknown field")`. -/
def GoError.Error : GoError → String
  | .ErrorJsonUnknownField => "json: unknown field"
  | .other msg => msg

/-- The library function `strings.HasPrefix(s, p)`. Go compares bytes; for
well-formed UTF-8 text, which is all a `String` holds, that is the same as
comparing characters. -/
def HasPrefix (s p : String) : Bool :=
  p.data.isPrefixOf s.data

/-- The call `fmt.Errorf("failed to read report %v", err)`: a fresh error value whose
text is the format's literal part followed by `err.Error()`. -/
def Errorf_failedToReadReport (err : GoError) : GoError :=
  .other ("failed to read report " ++ err.Error)

/-! ## Report shapes -/

/-- The type `types.Report` of the scanner library: the `Results` slice, and all its
other top-level fields kept together in `Fields`. `Result` is the library's
`types.Result`, never inspected here. -/
structure Report (Result Fields : Type) where
  Results : List Result
  Fields : Fields
  deriving DecidableEq, Repr

/-- An entry of `k8sReport.Report.Vulnerabilities` / `.Misconfigurations`; only
its `Results` field is read by this package. -/
structure Resource (Result : Type) where
  Results : List Result
  deriving DecidableEq, Repr

/-- The type `k8sReport.Report`; only the two resource slices are read by this
package. -/
structure K8sReport (Result : Type) where
  Vulnerabilities : List (Resource Result)
  Misconfigurations : List (Resource Result)
  deriving DecidableEq, Repr

/-- The function `convertK8sReportToReport` (`common.go:84-96`): `results` starts as the nil
slice, the first loop appends `vuln.Results...` for each vulnerability entry,
the second loop continues on the same accumulator with each misconfiguration
entry; the returned report has only `Results` set, every other field has its
zero value (`default`). A slice is the list of its elements, so the nil slice
and the empty slice are both `[]`. -/
def convertK8sReportToReport {Result Fields : Type} [Inhabited Fields]
    (k8s : K8sReport Result) : Report Result Fields :=
  let results : List Result := []
  let results := k8s.Vulnerabilities.foldl (fun results vuln => results ++ vuln.Results) results
  let results := k8s.Misconfigurations.foldl (fun results misc => results ++ misc.Results) results
  { Results := results, Fields := default }

/-! ## The world outside the package -/

/-- The type arguments with which the generic functions
`readAndParseJson[T]` / `parseJsonStrict[T]` are instantiated in this package:
`types.Report` (the primary shape) and `k8sReport.Report` (the aggregated
shape). -/
inductive Shape where
  | Primary : Shape
  | Aggregated : Shape
  deriving DecidableEq, Repr

/-- The Go type that a type argument stands for. -/
@[reducible]
def Shape.Target (Result Fields : Type) : Shape → Type
  | .Primary => Report Result Fields
  | .Aggregated => K8sReport Result

/-- An open `*os.File` seen as an `io.Reader`: the bytes it will deliver, the
error (if any) with which reading stops before the end of the data, and the
error (if any) that `Close` will return. -/
structure File where
  data : String
  readErr : Option String
  closeErr : Option GoError
  deriving DecidableEq, Repr

/-- The calls that leave the package, in the order they are made. `Attempt s`
marks the entry of `readAndParseJson[s]`; `Decode s err` is one call of
`decoder.Decode(&out)` with `out` of shape `s`, together with the error it
returned (`none` for `nil`). -/
inductive Event where
  | Println (operands : List String) : Event
  | Attempt (shape : Shape) : Event
  | Open (name : String) : Event
  | Decode (shape : Shape) (err : Option GoError) : Event
  | Close : Event
  deriving DecidableEq, Repr

/-- Everything the package depends on but does not define.

* `disk n name` is what the `n`-th call of `os.Open` of this run (counting from
  zero) returns for the path `name`: a file, or the text of the `*PathError`
  (`os.Open` documents that its error is always a `*PathError`, so it is never
  the package variable `ErrorJsonUnknownField`).
* `Decode s r` is what `json.NewDecoder(r)`, `DisallowUnknownFields()` and
  `Decode(&out)` do for `out` of shape `s`: the populated value or the error.
* `opened` counts the `os.Open` calls made so far, `trace` lists the calls made
  so far. -/
structure World (Result Fields : Type) where
  disk : Nat → String → Except String File
  Decode : (s : Shape) → File → Except GoError (s.Target Result Fields)
  opened : Nat
  trace : List Event

/-- Appends one event to the trace. -/
def World.emit {Result Fields : Type} (w : World Result Fields) (e : Event) :
    World Result Fields :=
  { w with trace := w.trace ++ [e] }

/-- The call `log.Println(operands...)`. -/
def Println {Result Fields : Type} (operands : List String) (w : World Result Fields) :
    World Result Fields :=
  w.emit (.Println operands)

/-- The call `os.Open(name)`. -/
def os_Open {Result Fields : Type} (name : String) (w : World Result Fields) :
    Except String File × World Result Fields :=
  (w.disk w.opened name, { w.emit (.Open name) with opened := w.opened + 1 })

/-- The call `f.Close()`. -/
def File.Close {Result Fields : Type} (f : File) (w : World Result Fields) :
    Option GoError × World Result Fields :=
  (f.closeErr, w.emit .Close)

/-! ## The strict decode and the resolver -/

/-- The function `parseJsonStrict[T]` (`common.go:67-81`). -/
def parseJsonStrict {Result Fields : Type} (T : Shape) (r : File) (w : World Result Fields) :
    Except GoError (T.Target Result Fields) × World Result Fields :=
  match w.Decode T r with
  | .error err =>
    let w := w.emit (.Decode T (some err))
    if HasPrefix err.Error "json: unknown field" then
      (.error .ErrorJsonUnknownField, w)
    else
      (.error err, w)
  | .ok out => (.ok out, w.emit (.Decode T none))

/-- The function `readAndParseJson[T]` (`common.go:50-64`). The deferred function runs after
`parseJsonStrict` has returned and before the caller gets the result. -/
def readAndParseJson {Result Fields : Type} (T : Shape) (fileName : String)
    (w : World Result Fields) :
    Except GoError (T.Target Result Fields) × World Result Fields :=
  let w := w.emit (.Attempt T)
  match os_Open fileName w with
  | (.error err, w) => (.error (.other err), w)
  | (.ok f, w) =>
    match parseJsonStrict T f w with
    | (res, w) =>
      match f.Close w with
      | (some err, w) => (res, Println ["failed to close file", err.Error] w)
      | (none, w) => (res, w)

/-- The function `ReadReport` (`common.go:28-47`). -/
def ReadReport {Result Fields : Type} [Inhabited Fields] (fileName : String)
    (w : World Result Fields) :
    Except GoError (Report Result Fields) × World Result Fields :=
  let w := Println ["Read report", fileName] w
  match readAndParseJson .Primary fileName w with
  | (.ok report, w) => (.ok report, w)
  | (.error err, w) =>
    if err ≠ .ErrorJsonUnknownField then
      (.error (Errorf_failedToReadReport err), w)
    else
      match readAndParseJson .Aggregated fileName w with
      | (.ok k8s, w) => (.ok (convertK8sReportToReport k8s), w)
      | (.error err, w) => (.error (Errorf_failedToReadReport err), w)

/-- The shapes whose attempt was started, in order. -/
def attempted : List Event → List Shape
  | [] => []
  | .Attempt s :: es => s :: attempted es
  | _ :: es => attempted es

/-- The shapes whose decode ran to its end and produced a value, in order. -/
def completed : List Event → List Shape
  | [] => []
  | .Decode s none :: es => s :: completed es
  | _ :: es => completed es

/-- The number of `os.Open` calls in a trace. -/
def opens : List Event → Nat
  | [] => 0
  | .Open _ :: es => opens es + 1
  | _ :: es => opens es

/-! ## Command-line splitting -/

/-- The type `Arguments`, a `map[string]string`. -/
abbrev Arguments := String → Option String

/-- The assignment `m[k] = v`. -/
def Arguments.set (m : Arguments) (k v : String) : Arguments :=
  fun k' => if k' = k then some v else m k'

/-- The lookup `m[k]` (the zero value `""` for a missing key). -/
def Arguments.index (m : Arguments) (k : String) : String :=
  (m k).getD ""

/-- The `for` loop of `RetrievePluginArguments` (`common.go:145-156`), from
loop variable `i` on. `osArgs` is `os.Args`. The first argument bounds the
number of iterations still allowed; `i` grows on every iteration and the loop
stops at `len(os.Args)`, so `len(os.Args) - i` iterations are always enough
(see `RetrievePluginArguments.loop_fuel`). -/
def RetrievePluginArguments.loop (osArgs availableArguments : List String) :
    Nat → Nat → Arguments → List String → Arguments × List String
  | 0, _, args, trivyCommand => (args, trivyCommand)
  | fuel + 1, i, args, trivyCommand =>
    if h : i < osArgs.length then
      if availableArguments.contains osArgs[i] then
        let args :=
          if h1 : i + 1 ≥ osArgs.length then args.set osArgs[i] ""
          else args.set osArgs[i] osArgs[i + 1]
        -- `i++ // skip argument value`, then the loop's own `i++`
        loop osArgs availableArguments fuel (i + 1 + 1) args trivyCommand
      else
        loop osArgs availableArguments fuel (i + 1) args (trivyCommand ++ [osArgs[i]])
    else
      (args, trivyCommand)

/-- The function `RetrievePluginArguments` (`common.go:142-158`) with `os.Args` as a
parameter. `none` is the run-time panic of `trivyCommand[1:]` on an empty
slice. -/
def RetrievePluginArguments (osArgs availableArguments : List String) :
    Option (Arguments × List String) :=
  match RetrievePluginArguments.loop osArgs availableArguments osArgs.length 0
      (fun _ => none) [] with
  | (args, trivyCommand) =>
    if 1 ≤ trivyCommand.length then some (args, trivyCommand.drop 1) else none

/-- The splitting as the specification words it: scanning left to right, an
element that is one of `availableArguments` is removed together with the
element right after it; every other element is kept. -/
def removeFlagsWithValues (availableArguments : List String) : List String → List String
  | [] => []
  | [a] => if availableArguments.contains a then [] else [a]
  | a :: b :: l =>
    if availableArguments.contains a then removeFlagsWithValues availableArguments l
    else a :: removeFlagsWithValues availableArguments (b :: l)

/-! ## Vocabulary of the statements -/

/-- What the deferred function of `readAndParseJson` adds to the trace for a
file `f`: the `Close` call, and the log line when `Close` returned an error. -/
def closeTrace (f : File) : List Event :=
  match f.closeErr with
  | some err => [.Close, .Println ["failed to close file", err.Error]]
  | none => [.Close]

/-- The error `parseJsonStrict` returns when the decoder returned `err`
(`common.go:74-77`). -/
def strictError (err : GoError) : GoError :=
  if HasPrefix err.Error "json: unknown field" then .ErrorJsonUnknownField else err

/-- The primary attempt on `fileName` in `w` ends with the unknown-field
signal: the file opens and the strict decode into the primary shape fails with
an error whose text begins with `json: unknown field`. -/
def PrimaryUnknownField {Result Fields : Type} (fileName : String) (w : World Result Fields) :
    Prop :=
  ∃ f err, w.disk w.opened fileName = .ok f ∧ w.Decode .Primary f = .error err
    ∧ HasPrefix err.Error "json: unknown field" = true

/-- The shape `s` is attempted to completion by the call of `ReadReport` on
`fileName` in `w` that added `new` to the trace: its attempt was made and
ended the call. The one attempt that does not end the call is a primary attempt
that ends with the unknown-field signal: it is abandoned for the aggregated
shape (`common.go:37-41`). Every other outcome of an attempt, a value or an
error, is returned to the caller (`common.go:33-35`, `37-39`, `42-46`). -/
def AttemptedToCompletion {Result Fields : Type} (fileName : String) (w : World Result Fields)
    (new : List Event) (s : Shape) : Prop :=
  s ∈ attempted new ∧ ¬ (s = .Primary ∧ PrimaryUnknownField fileName w)

/-- The flag values as the specification words them: scanning left to right,
the element right after an element that is one of `availableArguments` is
taken as the value of that flag, and `""` when the flag is the last element. -/
def flagValues (availableArguments : List String) : List String → Arguments → Arguments
  | [], m => m
  | [a], m => if availableArguments.contains a then m.set a "" else m
  | a :: b :: l, m =>
    if availableArguments.contains a then flagValues availableArguments l (m.set a b)
    else flagValues availableArguments (b :: l) m

/-! ## Sample worlds -/

/-- A file that closes cleanly. -/
def sampleFile (data : String) : File :=
  { data := data, readErr := none, closeErr := none }

/-- A flat report whose one result has the field `Target`. -/
def acceptedFlatDocument : String :=
  "\x7b\"Results\":[\x7b\"Target\":\"alpine\"\x7d]\x7d"

/-- An aggregated report with one vulnerability entry, whose one result has the
field `Target`. -/
def acceptedAggregatedDocument : String :=
  "\x7b\"Vulnerabilities\":[\x7b\"Results\":[\x7b\"Target\":\"alpine\"\x7d]\x7d],\"Misconfigurations\":[]\x7d"

/-- The flat example document of the specification; its one result has the
field `ID`. -/
def flatDocument : String :=
  "\x7b\"Results\":[\x7b\"ID\":\"CVE-1\"\x7d]\x7d"

/-- The aggregated example document of the specification; its one result has
the field `ID`. -/
def aggregatedDocument : String :=
  "\x7b\"Vulnerabilities\":[\x7b\"Results\":[\x7b\"ID\":\"CVE-2\"\x7d]\x7d],\"Misconfigurations\":[]\x7d"

/-- A document whose only field is unknown to both shapes. -/
def unknownDocument : String :=
  "\x7b\"NotAField\": 1\x7d"

/-- A document that stops right after its opening brace. -/
def truncatedDocument : String :=
  "\x7b"

/-- The answers of the library decoder on the sample documents, a result being
named by the text of its `Target`. The scanner library declares `Results` in
`types.Report`, `Vulnerabilities` and `Misconfigurations` in
`k8sReport.Report`, `Results` in an entry of those, and `Target` but no `ID` in
`types.Result`; `DisallowUnknownFields` applies to nested objects too, and the
decoder reports the first unknown field it meets. So each shape accepts only
the `accepted...` document written for it, the two example documents of the
specification are rejected by both shapes (on `ID`, or on the top-level field
of the other shape), `unknownDocument` is rejected on `NotAField`, and
`truncatedDocument` ends too early. Outside these six documents the function
answers as for the truncated one; nothing is stated about the library there. -/
def sampleDecode : (s : Shape) → File → Except GoError (s.Target String Unit)
  | .Primary, f =>
    if f.data = acceptedFlatDocument then
      .ok { Results := ["alpine"], Fields := () }
    else if f.data = flatDocument then
      .error (.other "json: unknown field \"ID\"")
    else if f.data = acceptedAggregatedDocument ∨ f.data = aggregatedDocument then
      .error (.other "json: unknown field \"Vulnerabilities\"")
    else if f.data = unknownDocument then
      .error (.other "json: unknown field \"NotAField\"")
    else .error (.other "unexpected EOF")
  | .Aggregated, f =>
    if f.data = acceptedAggregatedDocument then
      .ok { Vulnerabilities := [{ Results := ["alpine"] }], Misconfigurations := [] }
    else if f.data = aggregatedDocument then
      .error (.other "json: unknown field \"ID\"")
    else if f.data = acceptedFlatDocument ∨ f.data = flatDocument then
      .error (.other "json: unknown field \"Results\"")
    else if f.data = unknownDocument then
      .error (.other "json: unknown field \"NotAField\"")
    else .error (.other "unexpected EOF")

/-- A world in which every path holds the same document, nothing has been
opened and nothing has been traced yet. -/
def sampleWorld (data : String) : World String Unit :=
  { disk := fun _ _ => .ok (sampleFile data), Decode := sampleDecode, opened := 0, trace := [] }

/-! ## The flattener -/

theorem foldl_append_Results {Result : Type} (l : List (Resource Result)) (acc : List Result) :
    l.foldl (fun results e => results ++ e.Results) acc
      = acc ++ (l.map (fun e => e.Results)).flatten := by
  induction l generalizing acc with
  | nil => simp
  | cons e l ih => simp [ih, List.append_assoc]

theorem convert_Results {Result Fields : Type} [Inhabited Fields] (k8s : K8sReport Result) :
    (convertK8sReportToReport k8s : Report Result Fields).Results
      = (k8s.Vulnerabilities.map (fun e => e.Results)).flatten
        ++ (k8s.Misconfigurations.map (fun e => e.Results)).flatten := by
  simp [convertK8sReportToReport, foldl_append_Results]

/-- C1: the Results of `convertK8sReportToReport k8s` are exactly the Results of
the vulnerability entries, concatenated in entry order, followed by the Results
of the misconfiguration entries, concatenated in entry order; on the groups
`[V1{r1,r2}, V2{r3}]` and `[M1{r4}]` this is `[r1, r2, r3, r4]`. -/
theorem C1_flatten_is_concatenation :
    (∀ (Result Fields : Type) [Inhabited Fields] (k8s : K8sReport Result),
      (convertK8sReportToReport k8s : Report Result Fields).Results
        = (k8s.Vulnerabilities.map (fun e => e.Results)).flatten
          ++ (k8s.Misconfigurations.map (fun e => e.Results)).flatten)
    ∧ (∀ (Result Fields : Type) [Inhabited Fields] (r1 r2 r3 r4 : Result),
      (convertK8sReportToReport
          { Vulnerabilities := [{ Results := [r1, r2] }, { Results := [r3] }],
            Misconfigurations := [{ Results := [r4] }] } : Report Result Fields).Results
        = [r1, r2, r3, r4]) := by
  refine ⟨fun Result Fields _ k8s => convert_Results k8s, ?_⟩
  intro Result Fields _ r1 r2 r3 r4
  rfl

/-! ## One attempt -/

theorem readAndParseJson_open_error {Result Fields : Type} (T : Shape) (fileName : String)
    (w : World Result Fields) (msg : String)
    (hopen : w.disk w.opened fileName = .error msg) :
    readAndParseJson T fileName w
      = (.error (.other msg),
         { w with opened := w.opened + 1,
                  trace := w.trace ++ [.Attempt T, .Open fileName] }) := by
  simp [readAndParseJson, os_Open, World.emit, hopen]

theorem readAndParseJson_decode_ok {Result Fields : Type} (T : Shape) (fileName : String)
    (w : World Result Fields) (f : File) (out : T.Target Result Fields)
    (hopen : w.disk w.opened fileName = .ok f) (hdec : w.Decode T f = .ok out) :
    readAndParseJson T fileName w
      = (.ok out,
         { w with opened := w.opened + 1,
                  trace := w.trace ++ ([.Attempt T, .Open fileName, .Decode T none]
                            ++ closeTrace f) }) := by
  cases hc : f.closeErr <;>
    simp [readAndParseJson, os_Open, parseJsonStrict, File.Close, Println, World.emit,
      closeTrace, hopen, hdec, hc]

theorem readAndParseJson_decode_error {Result Fields : Type} (T : Shape) (fileName : String)
    (w : World Result Fields) (f : File) (err : GoError)
    (hopen : w.disk w.opened fileName = .ok f) (hdec : w.Decode T f = .error err) :
    readAndParseJson T fileName w
      = (.error (strictError err),
         { w with opened := w.opened + 1,
                  trace := w.trace ++ ([.Attempt T, .Open fileName, .Decode T (some err)]
                            ++ closeTrace f) }) := by
  cases hc : f.closeErr <;> by_cases hp : HasPrefix err.Error "json: unknown field" = true <;>
    simp [readAndParseJson, os_Open, parseJsonStrict, File.Close, Println, World.emit,
      closeTrace, strictError, hopen, hdec, hc, hp]

theorem HasPrefix_sentinel :
    HasPrefix GoError.ErrorJsonUnknownField.Error "json: unknown field" = true := by
  decide

theorem strictError_eq_sentinel_iff (err : GoError) :
    strictError err = .ErrorJsonUnknownField
      ↔ HasPrefix err.Error "json: unknown field" = true := by
  unfold strictError
  constructor
  · intro h
    by_cases hp : HasPrefix err.Error "json: unknown field" = true
    · exact hp
    · rw [if_neg hp] at h
      rw [h]
      exact HasPrefix_sentinel
  · intro hp
    rw [if_pos hp]

theorem strictError_of_other (err : GoError)
    (hp : HasPrefix err.Error "json: unknown field" = false) : strictError err = err := by
  simp [strictError, hp]

/-! ## The six paths through `ReadReport` -/

theorem ReadReport_primary_ok {Result Fields : Type} [Inhabited Fields] (fileName : String)
    (w : World Result Fields) (f : File) (r : Report Result Fields)
    (hopen : w.disk w.opened fileName = .ok f) (hdec : w.Decode .Primary f = .ok r) :
    ReadReport fileName w
      = (.ok r,
         { w with opened := w.opened + 1,
                  trace := w.trace ++ ([.Println ["Read report", fileName], .Attempt .Primary,
                            .Open fileName, .Decode .Primary none] ++ closeTrace f) }) := by
  have h := readAndParseJson_decode_ok .Primary fileName (Println ["Read report", fileName] w)
    f r (by simpa [Println, World.emit] using hopen) (by simpa [Println, World.emit] using hdec)
  simp only [ReadReport, h]
  simp [Println, World.emit]

theorem ReadReport_primary_open_error {Result Fields : Type} [Inhabited Fields]
    (fileName : String) (w : World Result Fields) (msg : String)
    (hopen : w.disk w.opened fileName = .error msg) :
    ReadReport fileName w
      = (.error (Errorf_failedToReadReport (.other msg)),
         { w with opened := w.opened + 1,
                  trace := w.trace ++ [.Println ["Read report", fileName], .Attempt .Primary,
                            .Open fileName] }) := by
  have h := @readAndParseJson_open_error Result Fields .Primary fileName
    (Println ["Read report", fileName] w) msg (by simpa [Println, World.emit] using hopen)
  simp only [ReadReport, h]
  simp [Println, World.emit]

theorem ReadReport_primary_other {Result Fields : Type} [Inhabited Fields]
    (fileName : String) (w : World Result Fields) (f : File) (err : GoError)
    (hopen : w.disk w.opened fileName = .ok f) (hdec : w.Decode .Primary f = .error err)
    (hp : HasPrefix err.Error "json: unknown field" = false) :
    ReadReport fileName w
      = (.error (Errorf_failedToReadReport err),
         { w with opened := w.opened + 1,
                  trace := w.trace ++ ([.Println ["Read report", fileName], .Attempt .Primary,
                            .Open fileName, .Decode .Primary (some err)] ++ closeTrace f) }) := by
  have h := readAndParseJson_decode_error .Primary fileName (Println ["Read report", fileName] w)
    f err (by simpa [Println, World.emit] using hopen) (by simpa [Println, World.emit] using hdec)
  have hne : err ≠ .ErrorJsonUnknownField := by
    intro he
    rw [he, HasPrefix_sentinel] at hp
    exact Bool.noConfusion hp
  simp only [ReadReport, h, strictError_of_other err hp]
  simp [Println, World.emit, hne]

/-- The world in which the fallback attempt starts: the primary attempt opened
`f1` and its decode returned `err1`. -/
theorem primary_unknown_field {Result Fields : Type} (fileName : String)
    (w : World Result Fields) (f1 : File) (err1 : GoError)
    (hopen : w.disk w.opened fileName = .ok f1) (hdec : w.Decode .Primary f1 = .error err1)
    (hp : HasPrefix err1.Error "json: unknown field" = true) :
    readAndParseJson .Primary fileName (Println ["Read report", fileName] w)
      = (.error .ErrorJsonUnknownField,
         { w with opened := w.opened + 1,
                  trace := w.trace ++ ([.Println ["Read report", fileName], .Attempt .Primary,
                            .Open fileName, .Decode .Primary (some err1)] ++ closeTrace f1) }) := by
  have h := readAndParseJson_decode_error .Primary fileName (Println ["Read report", fileName] w)
    f1 err1 (by simpa [Println, World.emit] using hopen)
    (by simpa [Println, World.emit] using hdec)
  rw [h, (strictError_eq_sentinel_iff err1).2 hp]
  simp [Println, World.emit]

theorem ReadReport_fallback_ok {Result Fields : Type} [Inhabited Fields]
    (fileName : String) (w : World Result Fields) (f1 f2 : File) (err1 : GoError)
    (k8s : K8sReport Result)
    (hopen1 : w.disk w.opened fileName = .ok f1) (hdec1 : w.Decode .Primary f1 = .error err1)
    (hp : HasPrefix err1.Error "json: unknown field" = true)
    (hopen2 : w.disk (w.opened + 1) fileName = .ok f2)
    (hdec2 : w.Decode .Aggregated f2 = .ok k8s) :
    ReadReport fileName w
      = (.ok (convertK8sReportToReport k8s),
         { w with opened := w.opened + 2,
                  trace := w.trace ++ ([.Println ["Read report", fileName], .Attempt .Primary,
                            .Open fileName, .Decode .Primary (some err1)] ++ closeTrace f1
                            ++ ([.Attempt .Aggregated, .Open fileName, .Decode .Aggregated none]
                            ++ closeTrace f2)) }) := by
  have h1 := primary_unknown_field fileName w f1 err1 hopen1 hdec1 hp
  simp only [ReadReport, h1]
  rw [readAndParseJson_decode_ok .Aggregated fileName _ f2 k8s (by simpa using hopen2)
    (by simpa using hdec2)]
  simp

theorem ReadReport_fallback_open_error {Result Fields : Type} [Inhabited Fields]
    (fileName : String) (w : World Result Fields) (f1 : File) (err1 : GoError) (msg : String)
    (hopen1 : w.disk w.opened fileName = .ok f1) (hdec1 : w.Decode .Primary f1 = .error err1)
    (hp : HasPrefix err1.Error "json: unknown field" = true)
    (hopen2 : w.disk (w.opened + 1) fileName = .error msg) :
    ReadReport fileName w
      = (.error (Errorf_failedToReadReport (.other msg)),
         { w with opened := w.opened + 2,
                  trace := w.trace ++ ([.Println ["Read report", fileName], .Attempt .Primary,
                            .Open fileName, .Decode .Primary (some err1)] ++ closeTrace f1
                            ++ [.Attempt .Aggregated, .Open fileName]) }) := by
  have h1 := primary_unknown_field fileName w f1 err1 hopen1 hdec1 hp
  simp only [ReadReport, h1]
  rw [readAndParseJson_open_error .Aggregated fileName _ msg (by simpa using hopen2)]
  simp

theorem ReadReport_fallback_decode_error {Result Fields : Type} [Inhabited Fields]
    (fileName : String) (w : World Result Fields) (f1 f2 : File) (err1 err2 : GoError)
    (hopen1 : w.disk w.opened fileName = .ok f1) (hdec1 : w.Decode .Primary f1 = .error err1)
    (hp : HasPrefix err1.Error "json: unknown field" = true)
    (hopen2 : w.disk (w.opened + 1) fileName = .ok f2)
    (hdec2 : w.Decode .Aggregated f2 = .error err2) :
    ReadReport fileName w
      = (.error (Errorf_failedToReadReport (strictError err2)),
         { w with opened := w.opened + 2,
                  trace := w.trace ++ ([.Println ["Read report", fileName], .Attempt .Primary,
                            .Open fileName, .Decode .Primary (some err1)] ++ closeTrace f1
                            ++ ([.Attempt .Aggregated, .Open fileName,
                                  .Decode .Aggregated (some err2)] ++ closeTrace f2)) }) := by
  have h1 := primary_unknown_field fileName w f1 err1 hopen1 hdec1 hp
  simp only [ReadReport, h1]
  rw [readAndParseJson_decode_error .Aggregated fileName _ f2 err2 (by simpa using hopen2)
    (by simpa using hdec2)]
  simp

/-! ## Reading a trace -/

theorem attempted_append (a b : List Event) : attempted (a ++ b) = attempted a ++ attempted b := by
  induction a with
  | nil => rfl
  | cons e a ih => cases e <;> simp [attempted, ih]

theorem completed_append (a b : List Event) : completed (a ++ b) = completed a ++ completed b := by
  induction a with
  | nil => rfl
  | cons e a ih =>
    cases e with
    | Decode s err => cases err <;> simp [completed, ih]
    | _ => simp [completed, ih]

theorem opens_append (a b : List Event) : opens (a ++ b) = opens a + opens b := by
  induction a with
  | nil => simp [opens]
  | cons e a ih =>
    cases e with
    | Open name =>
      show opens (a ++ b) + 1 = opens a + 1 + opens b
      omega
    | _ => simp [opens, ih]

theorem attempted_closeTrace (f : File) : attempted (closeTrace f) = [] := by
  unfold closeTrace
  cases f.closeErr <;> rfl

theorem completed_closeTrace (f : File) : completed (closeTrace f) = [] := by
  unfold closeTrace
  cases f.closeErr <;> rfl

theorem opens_closeTrace (f : File) : opens (closeTrace f) = 0 := by
  unfold closeTrace
  cases f.closeErr <;> rfl

theorem Decode_not_mem_closeTrace (f : File) (s : Shape) (err : Option GoError) :
    Event.Decode s err ∉ closeTrace f := by
  unfold closeTrace
  cases f.closeErr <;> simp

/-! ## The resolver: success paths -/

/-- C2: when the file opens and the strict decode into the primary shape
returns the value `r`, `ReadReport` succeeds with `r` itself, and the calls it
made are one attempt, of the primary shape, with one `os.Open`: no decode into
the aggregated shape takes place. -/
theorem C2_primary_success_returns_decoded {Result Fields : Type} [Inhabited Fields]
    (fileName : String) (w : World Result Fields) (f : File) (r : Report Result Fields)
    (hopen : w.disk w.opened fileName = .ok f) (hdec : w.Decode .Primary f = .ok r) :
    (ReadReport fileName w).1 = .ok r
    ∧ ∃ new, (ReadReport fileName w).2.trace = w.trace ++ new
        ∧ attempted new = [.Primary]
        ∧ (∀ err, Event.Decode .Aggregated err ∉ new)
        ∧ opens new = 1 := by
  rw [ReadReport_primary_ok fileName w f r hopen hdec]
  refine ⟨rfl, _, rfl, ?_, ?_, ?_⟩
  · simp [attempted_append, attempted_closeTrace, attempted]
  · intro err
    simp [Decode_not_mem_closeTrace]
  · simp [opens_append, opens_closeTrace, opens]

/-- C2 at a flat document that the primary shape accepts: the result is the
one decoded result and only the primary shape was attempted. -/
theorem C2_witness :
    (ReadReport "trivy.json" (sampleWorld acceptedFlatDocument)).1
        = .ok { Results := ["alpine"], Fields := () }
    ∧ ∃ new, (ReadReport "trivy.json" (sampleWorld acceptedFlatDocument)).2.trace
          = (sampleWorld acceptedFlatDocument).trace ++ new
        ∧ attempted new = [.Primary]
        ∧ (∀ err, Event.Decode .Aggregated err ∉ new)
        ∧ opens new = 1 :=
  C2_primary_success_returns_decoded "trivy.json" (sampleWorld acceptedFlatDocument)
    (sampleFile acceptedFlatDocument) { Results := ["alpine"], Fields := () } rfl rfl

/-- C2 fails at its own example. On the flat example document of the
specification the strict decode into the primary shape does not succeed: it
meets the unknown field `ID` inside the result. `ReadReport` therefore invokes
the fallback, opens the file twice, and returns an error and no Results. -/
theorem C2_counterexample :
    (sampleWorld flatDocument).Decode .Primary (sampleFile flatDocument)
        = .error (.other "json: unknown field \"ID\"")
    ∧ (ReadReport "trivy.json" (sampleWorld flatDocument)).1
        = .error (.other "failed to read report json: unknown field")
    ∧ attempted (ReadReport "trivy.json" (sampleWorld flatDocument)).2.trace
        = [.Primary, .Aggregated]
    ∧ opens (ReadReport "trivy.json" (sampleWorld flatDocument)).2.trace = 2 :=
  ⟨rfl, rfl, rfl, rfl⟩

/-- C3: when the primary attempt opens the file and its strict decode fails
with an unknown-field error, and the second opening succeeds and the strict
decode into the aggregated shape returns `k8s`, `ReadReport` succeeds with a
report whose Results are the Results of the vulnerability entries of `k8s` in
order followed by those of its misconfiguration entries in order. -/
theorem C3_fallback_success_flattens {Result Fields : Type} [Inhabited Fields]
    (fileName : String) (w : World Result Fields) (f1 f2 : File) (err1 : GoError)
    (k8s : K8sReport Result)
    (hopen1 : w.disk w.opened fileName = .ok f1) (hdec1 : w.Decode .Primary f1 = .error err1)
    (hunknown : HasPrefix err1.Error "json: unknown field" = true)
    (hopen2 : w.disk (w.opened + 1) fileName = .ok f2)
    (hdec2 : w.Decode .Aggregated f2 = .ok k8s) :
    ∃ report, (ReadReport fileName w).1 = .ok report
      ∧ report.Results
          = (k8s.Vulnerabilities.map (fun e => e.Results)).flatten
            ++ (k8s.Misconfigurations.map (fun e => e.Results)).flatten := by
  rw [ReadReport_fallback_ok fileName w f1 f2 err1 k8s hopen1 hdec1 hunknown hopen2 hdec2]
  exact ⟨_, rfl, convert_Results k8s⟩

/-- C3 at an aggregated document that the aggregated shape accepts: the
primary decode fails on the unknown field `Vulnerabilities`, and the result
holds exactly the one result of the document. -/
theorem C3_witness :
    ∃ report, (ReadReport "trivy.json" (sampleWorld acceptedAggregatedDocument)).1 = .ok report
      ∧ report.Results = ["alpine"] :=
  C3_fallback_success_flattens "trivy.json" (sampleWorld acceptedAggregatedDocument)
    (sampleFile acceptedAggregatedDocument) (sampleFile acceptedAggregatedDocument)
    (.other "json: unknown field \"Vulnerabilities\"")
    { Vulnerabilities := [{ Results := ["alpine"] }], Misconfigurations := [] }
    rfl rfl (by decide) rfl rfl

/-- C3 fails at its own example. On the aggregated example document of the
specification the primary decode fails with an unknown field, but the strict
decode into the aggregated shape does not succeed either: it meets the unknown
field `ID` inside the result. `ReadReport` returns an error and no Results, and
no decode returns a value. -/
theorem C3_counterexample :
    (sampleWorld aggregatedDocument).Decode .Aggregated (sampleFile aggregatedDocument)
        = .error (.other "json: unknown field \"ID\"")
    ∧ (ReadReport "trivy.json" (sampleWorld aggregatedDocument)).1
        = .error (.other "failed to read report json: unknown field")
    ∧ attempted (ReadReport "trivy.json" (sampleWorld aggregatedDocument)).2.trace
        = [.Primary, .Aggregated]
    ∧ completed (ReadReport "trivy.json" (sampleWorld aggregatedDocument)).2.trace = [] :=
  ⟨rfl, rfl, rfl, rfl⟩

/-! ## The resolver: failure paths -/

/-- C4: when the primary attempt fails with a failure other than the
unknown-field signal (the file does not open, or the strict decode fails with
an error whose text does not begin with `json: unknown field`), `ReadReport`
returns an error and no report, after one attempt, of the primary shape, and
one `os.Open`: the aggregated shape is never attempted. -/
theorem C4_other_failure_no_fallback {Result Fields : Type} [Inhabited Fields]
    (fileName : String) (w : World Result Fields) (cause : GoError)
    (hfail : (∃ msg, w.disk w.opened fileName = .error msg ∧ cause = .other msg)
      ∨ (∃ f, w.disk w.opened fileName = .ok f ∧ w.Decode .Primary f = .error cause
          ∧ HasPrefix cause.Error "json: unknown field" = false)) :
    (ReadReport fileName w).1 = .error (.other ("failed to read report " ++ cause.Error))
    ∧ (ReadReport fileName w).2.opened = w.opened + 1
    ∧ ∃ new, (ReadReport fileName w).2.trace = w.trace ++ new
        ∧ attempted new = [.Primary]
        ∧ opens new = 1 := by
  rcases hfail with ⟨msg, hopen, rfl⟩ | ⟨f, hopen, hdec, hp⟩
  · rw [ReadReport_primary_open_error fileName w msg hopen]
    exact ⟨rfl, rfl, _, rfl, rfl, rfl⟩
  · rw [ReadReport_primary_other fileName w f cause hopen hdec hp]
    refine ⟨rfl, rfl, _, rfl, ?_, ?_⟩
    · simp [attempted_append, attempted_closeTrace, attempted]
    · simp [opens_append, opens_closeTrace, opens]

/-- C4 at a document that ends too early: the error of the decoder comes back
wrapped and only the primary shape was attempted. -/
theorem C4_witness :
    (ReadReport "trivy.json" (sampleWorld truncatedDocument)).1
        = .error (.other "failed to read report unexpected EOF")
    ∧ (ReadReport "trivy.json" (sampleWorld truncatedDocument)).2.opened
        = (sampleWorld truncatedDocument).opened + 1
    ∧ ∃ new, (ReadReport "trivy.json" (sampleWorld truncatedDocument)).2.trace
          = (sampleWorld truncatedDocument).trace ++ new
        ∧ attempted new = [.Primary]
        ∧ opens new = 1 :=
  C4_other_failure_no_fallback "trivy.json" (sampleWorld truncatedDocument)
    (.other "unexpected EOF") (Or.inr ⟨sampleFile truncatedDocument, rfl, rfl, by decide⟩)

/-- C5: when the primary attempt fails with the unknown-field signal and the
aggregated attempt fails too (the second opening fails, or the strict decode
into the aggregated shape fails, with an unknown field or otherwise),
`ReadReport` fails with the wrapping of the error `e2` that the aggregated
attempt returned; the primary error `err1` does not occur in the result. -/
theorem C5_double_failure_reports_aggregated {Result Fields : Type} [Inhabited Fields]
    (fileName : String) (w : World Result Fields) (f1 : File) (err1 e2 : GoError)
    (hopen1 : w.disk w.opened fileName = .ok f1) (hdec1 : w.Decode .Primary f1 = .error err1)
    (hunknown : HasPrefix err1.Error "json: unknown field" = true)
    (hsecond : (∃ msg, w.disk (w.opened + 1) fileName = .error msg ∧ e2 = .other msg)
      ∨ (∃ f2 err2, w.disk (w.opened + 1) fileName = .ok f2
          ∧ w.Decode .Aggregated f2 = .error err2 ∧ e2 = strictError err2)) :
    (ReadReport fileName w).1 = .error (.other ("failed to read report " ++ e2.Error))
    ∧ ∃ new, (ReadReport fileName w).2.trace = w.trace ++ new
        ∧ attempted new = [.Primary, .Aggregated] := by
  rcases hsecond with ⟨msg, hopen2, rfl⟩ | ⟨f2, err2, hopen2, hdec2, rfl⟩
  · rw [ReadReport_fallback_open_error fileName w f1 err1 msg hopen1 hdec1 hunknown hopen2]
    refine ⟨rfl, _, rfl, ?_⟩
    simp [attempted_append, attempted_closeTrace, attempted]
  · rw [ReadReport_fallback_decode_error fileName w f1 f2 err1 err2 hopen1 hdec1 hunknown
      hopen2 hdec2]
    refine ⟨rfl, _, rfl, ?_⟩
    simp [attempted_append, attempted_closeTrace, attempted]

/-- C5 at a document with a field unknown to both shapes: the reported text is
the wrapping of the unknown-field signal returned by the aggregated attempt. -/
theorem C5_witness :
    (ReadReport "trivy.json" (sampleWorld unknownDocument)).1
        = .error (.other "failed to read report json: unknown field")
    ∧ ∃ new, (ReadReport "trivy.json" (sampleWorld unknownDocument)).2.trace
          = (sampleWorld unknownDocument).trace ++ new
        ∧ attempted new = [.Primary, .Aggregated] :=
  C5_double_failure_reports_aggregated "trivy.json" (sampleWorld unknownDocument)
    (sampleFile unknownDocument) (.other "json: unknown field \"NotAField\"")
    (strictError (.other "json: unknown field \"NotAField\"")) rfl rfl (by decide)
    (Or.inr ⟨sampleFile unknownDocument, .other "json: unknown field \"NotAField\"",
      rfl, rfl, rfl⟩)

/-! ## The classification of decode failures -/

/-- C6: `parseJsonStrict` returns the package variable `ErrorJsonUnknownField`
exactly when the decoder failed with an error whose text begins with
`json: unknown field`; any other decoder error is returned unchanged and is not
that variable; and a value is returned exactly when the decoder returned it. -/
theorem C6_unknown_field_is_distinguished {Result Fields : Type} (T : Shape) (r : File)
    (w : World Result Fields) :
    (∀ err, w.Decode T r = .error err →
        ((parseJsonStrict T r w).1 = .error .ErrorJsonUnknownField
            ↔ HasPrefix err.Error "json: unknown field" = true)
        ∧ (HasPrefix err.Error "json: unknown field" = false →
            (parseJsonStrict T r w).1 = .error err ∧ err ≠ .ErrorJsonUnknownField))
    ∧ (∀ out, (parseJsonStrict T r w).1 = .ok out ↔ w.Decode T r = .ok out) := by
  constructor
  · intro err hdec
    have hres : (parseJsonStrict T r w).1 = .error (strictError err) := by
      by_cases hp : HasPrefix err.Error "json: unknown field" = true <;>
        simp [parseJsonStrict, hdec, strictError, hp]
    rw [hres]
    constructor
    · constructor
      · intro h
        exact (strictError_eq_sentinel_iff err).1 (Except.error.inj h)
      · intro hp
        rw [(strictError_eq_sentinel_iff err).2 hp]
    · intro hp
      refine ⟨by rw [strictError_of_other err hp], ?_⟩
      intro he
      rw [he, HasPrefix_sentinel] at hp
      exact Bool.noConfusion hp
  · intro out
    cases hdec : w.Decode T r with
    | ok v => simp [parseJsonStrict, hdec]
    | error err =>
      by_cases hp : HasPrefix err.Error "json: unknown field" = true <;>
        simp [parseJsonStrict, hdec, hp]

/-! ## The wrapping of failures -/

theorem HasPrefix_append (p s : String) : HasPrefix (p ++ s) p = true := by
  simp [HasPrefix, String.data_append]

/-- C7: whenever `ReadReport` returns an error, that error is a fresh value
whose text is `failed to read report `, a prefix beginning with
`failed to read report`, followed by the text of the error that ended the
resolution: the error of the primary attempt when it is not the unknown-field
signal, and otherwise the error of the aggregated attempt. -/
theorem C7_failures_are_wrapped {Result Fields : Type} [Inhabited Fields]
    (fileName : String) (w : World Result Fields) (err : GoError)
    (hfail : (ReadReport fileName w).1 = .error err) :
    ∃ cause, err = .other ("failed to read report " ++ cause.Error)
      ∧ HasPrefix err.Error "failed to read report" = true
      ∧ (((readAndParseJson .Primary fileName (Println ["Read report", fileName] w)).1
              = .error cause ∧ cause ≠ .ErrorJsonUnknownField)
          ∨ ((readAndParseJson .Primary fileName (Println ["Read report", fileName] w)).1
              = .error .ErrorJsonUnknownField
            ∧ (readAndParseJson .Aggregated fileName
                (readAndParseJson .Primary fileName
                  (Println ["Read report", fileName] w)).2).1 = .error cause)) := by
  have hwrap : ∀ cause : GoError,
      HasPrefix (Errorf_failedToReadReport cause).Error "failed to read report" = true := by
    intro cause
    have h := HasPrefix_append "failed to read report" (" " ++ cause.Error)
    have e : "failed to read report" ++ (" " ++ cause.Error)
        = "failed to read report " ++ cause.Error := by
      rw [← String.append_assoc]
      rfl
    rw [e] at h
    exact h
  simp only [ReadReport] at hfail
  cases h1 : readAndParseJson .Primary fileName (Println ["Read report", fileName] w) with
  | mk res1 w1 =>
    rw [h1] at hfail
    cases res1 with
    | ok report => simp at hfail
    | error e1 =>
      by_cases hne : e1 = .ErrorJsonUnknownField
      · subst hne
        cases h2 : readAndParseJson .Aggregated fileName w1 with
        | mk res2 w2 =>
          simp only [h2, ne_eq, not_true_eq_false, if_false] at hfail
          cases res2 with
          | ok k8s => simp at hfail
          | error e2 =>
            have he : err = Errorf_failedToReadReport e2 := (Except.error.inj hfail).symm
            subst he
            exact ⟨e2, rfl, hwrap e2, Or.inr ⟨rfl, rfl⟩⟩
      · simp only [ne_eq, hne, not_false_eq_true, if_true] at hfail
        have he : err = Errorf_failedToReadReport e1 := (Except.error.inj hfail).symm
        subst he
        exact ⟨e1, rfl, hwrap e1, Or.inl ⟨rfl, hne⟩⟩

/-- C7 at a document with a field unknown to both shapes: the error returned
is the wrapped unknown-field signal of the aggregated attempt. -/
theorem C7_witness :
    ∃ cause, GoError.other "failed to read report json: unknown field"
        = .other ("failed to read report " ++ cause.Error)
      ∧ HasPrefix (GoError.other "failed to read report json: unknown field").Error
          "failed to read report" = true
      ∧ (((readAndParseJson .Primary "trivy.json"
              (Println ["Read report", "trivy.json"] (sampleWorld unknownDocument))).1
              = .error cause ∧ cause ≠ .ErrorJsonUnknownField)
          ∨ ((readAndParseJson .Primary "trivy.json"
              (Println ["Read report", "trivy.json"] (sampleWorld unknownDocument))).1
              = .error .ErrorJsonUnknownField
            ∧ (readAndParseJson .Aggregated "trivy.json"
                (readAndParseJson .Primary "trivy.json"
                  (Println ["Read report", "trivy.json"]
                    (sampleWorld unknownDocument))).2).1 = .error cause)) :=
  C7_failures_are_wrapped "trivy.json" (sampleWorld unknownDocument)
    (.other "failed to read report json: unknown field") rfl

/-! ## The sequence of attempts -/

/-- What one call of `ReadReport` adds to the trace, on every input: which
shapes it attempts, how often it opens the file, and which decode returned a
value. -/
theorem ReadReport_summary {Result Fields : Type} [Inhabited Fields]
    (fileName : String) (w : World Result Fields) :
    ∃ new, (ReadReport fileName w).2.trace = w.trace ++ new
      ∧ (PrimaryUnknownField fileName w → attempted new = [.Primary, .Aggregated])
      ∧ (¬ PrimaryUnknownField fileName w → attempted new = [.Primary])
      ∧ opens new = (attempted new).length
      ∧ ((∃ r, (ReadReport fileName w).1 = .ok r) →
          (attempted new = [.Primary] ∧ completed new = [.Primary])
          ∨ (attempted new = [.Primary, .Aggregated] ∧ completed new = [.Aggregated]))
      ∧ ((∃ e, (ReadReport fileName w).1 = .error e) → completed new = []) := by
  cases hopen : w.disk w.opened fileName with
  | error msg =>
    have hnot : ¬ PrimaryUnknownField fileName w := by
      rintro ⟨f, err, ho, -, -⟩
      rw [hopen] at ho
      cases ho
    rw [ReadReport_primary_open_error fileName w msg hopen]
    refine ⟨_, rfl, fun h => absurd h hnot, fun _ => rfl, rfl, ?_, fun _ => rfl⟩
    rintro ⟨r, hr⟩
    cases hr
  | ok f =>
    cases hdec : w.Decode .Primary f with
    | ok r =>
      have hnot : ¬ PrimaryUnknownField fileName w := by
        rintro ⟨f', err, ho, hd, -⟩
        rw [hopen] at ho
        cases ho
        rw [hdec] at hd
        cases hd
      rw [ReadReport_primary_ok fileName w f r hopen hdec]
      refine ⟨_, rfl, fun h => absurd h hnot, fun _ => ?_, ?_, fun _ => Or.inl ⟨?_, ?_⟩, ?_⟩
      · simp [attempted_append, attempted_closeTrace, attempted]
      · simp [attempted_append, attempted_closeTrace, attempted, opens_append,
          opens_closeTrace, opens]
      · simp [attempted_append, attempted_closeTrace, attempted]
      · simp [completed_append, completed_closeTrace, completed]
      · rintro ⟨e, he⟩
        cases he
    | error err =>
      by_cases hp : HasPrefix err.Error "json: unknown field" = true
      · have hyes : PrimaryUnknownField fileName w := ⟨f, err, hopen, hdec, hp⟩
        cases hopen2 : w.disk (w.opened + 1) fileName with
        | error msg =>
          rw [ReadReport_fallback_open_error fileName w f err msg hopen hdec hp hopen2]
          refine ⟨_, rfl, fun _ => ?_, fun h => absurd hyes h, ?_, ?_, fun _ => ?_⟩
          · simp [attempted_append, attempted_closeTrace, attempted]
          · simp [attempted_append, attempted_closeTrace, attempted, opens_append,
              opens_closeTrace, opens]
          · rintro ⟨r, hr⟩
            cases hr
          · simp [completed_append, completed_closeTrace, completed]
        | ok f2 =>
          cases hdec2 : w.Decode .Aggregated f2 with
          | ok k8s =>
            rw [ReadReport_fallback_ok fileName w f f2 err k8s hopen hdec hp hopen2 hdec2]
            refine ⟨_, rfl, fun _ => ?_, fun h => absurd hyes h, ?_,
              fun _ => Or.inr ⟨?_, ?_⟩, ?_⟩
            · simp [attempted_append, attempted_closeTrace, attempted]
            · simp [attempted_append, attempted_closeTrace, attempted, opens_append,
                opens_closeTrace, opens]
            · simp [attempted_append, attempted_closeTrace, attempted]
            · simp [completed_append, completed_closeTrace, completed]
            · rintro ⟨e, he⟩
              cases he
          | error err2 =>
            rw [ReadReport_fallback_decode_error fileName w f f2 err err2 hopen hdec hp
              hopen2 hdec2]
            refine ⟨_, rfl, fun _ => ?_, fun h => absurd hyes h, ?_, ?_, fun _ => ?_⟩
            · simp [attempted_append, attempted_closeTrace, attempted]
            · simp [attempted_append, attempted_closeTrace, attempted, opens_append,
                opens_closeTrace, opens]
            · rintro ⟨r, hr⟩
              cases hr
            · simp [completed_append, completed_closeTrace, completed]
      · have hp' : HasPrefix err.Error "json: unknown field" = false := by
          simpa using hp
        have hnot : ¬ PrimaryUnknownField fileName w := by
          rintro ⟨f', err', ho, hd, hq⟩
          rw [hopen] at ho
          cases ho
          rw [hdec] at hd
          cases hd
          exact hp hq
        rw [ReadReport_primary_other fileName w f err hopen hdec hp']
        refine ⟨_, rfl, fun h => absurd h hnot, fun _ => ?_, ?_, ?_, fun _ => ?_⟩
        · simp [attempted_append, attempted_closeTrace, attempted]
        · simp [attempted_append, attempted_closeTrace, attempted, opens_append,
            opens_closeTrace, opens]
        · rintro ⟨r, hr⟩
          cases hr
        · simp [completed_append, completed_closeTrace, completed]

/-- C8: on every input the attempts of one `ReadReport` call are the primary
shape alone, or the primary shape followed by the aggregated shape and nothing
after it; the second case occurs exactly when the primary attempt ended with
the unknown-field signal; and every attempt opens the file once. -/
theorem C8_attempts_once_in_fixed_order {Result Fields : Type} [Inhabited Fields]
    (fileName : String) (w : World Result Fields) :
    ∃ new, (ReadReport fileName w).2.trace = w.trace ++ new
      ∧ (attempted new = [.Primary] ∨ attempted new = [.Primary, .Aggregated])
      ∧ (attempted new = [.Primary, .Aggregated] ↔ PrimaryUnknownField fileName w)
      ∧ opens new = (attempted new).length := by
  obtain ⟨new, htrace, hyes, hno, hopens, -, -⟩ := ReadReport_summary fileName w
  refine ⟨new, htrace, ?_, ?_, hopens⟩
  · by_cases h : PrimaryUnknownField fileName w
    · exact Or.inr (hyes h)
    · exact Or.inl (hno h)
  · constructor
    · intro h
      by_contra hcon
      rw [hno hcon] at h
      simp at h
    · exact hyes

/-- C9: on every input exactly one of the two shapes is attempted to
completion by `ReadReport`, and it is the last shape attempted: the aggregated
shape when the primary attempt was abandoned on the unknown-field signal, the
primary shape otherwise. Whenever `ReadReport` succeeds, the one decode that
returned a value is the decode of that shape, and the value returned is of the
canonical report type whichever shape it was (the type of `ReadReport`). -/
theorem C9_exactly_one_shape_to_completion {Result Fields : Type} [Inhabited Fields]
    (fileName : String) (w : World Result Fields) :
    ∃ new, (ReadReport fileName w).2.trace = w.trace ++ new
      ∧ ∃ s, AttemptedToCompletion fileName w new s
          ∧ (∀ s', AttemptedToCompletion fileName w new s' → s' = s)
          ∧ (attempted new).getLast? = some s
          ∧ ((∃ r : Report Result Fields, (ReadReport fileName w).1 = .ok r) →
              completed new = [s]) := by
  obtain ⟨new, htrace, hyes, hno, -, hok, -⟩ := ReadReport_summary fileName w
  refine ⟨new, htrace, ?_⟩
  by_cases h : PrimaryUnknownField fileName w
  · have hatt := hyes h
    refine ⟨.Aggregated, ⟨by rw [hatt]; simp, fun hc => Shape.noConfusion hc.1⟩, ?_, ?_, ?_⟩
    · rintro s' ⟨hmem, hnot⟩
      rw [hatt] at hmem
      rcases List.mem_cons.mp hmem with rfl | hmem
      · exact absurd ⟨rfl, h⟩ hnot
      · exact List.mem_singleton.mp hmem
    · rw [hatt]
      rfl
    · intro hsucc
      rcases hok hsucc with ⟨ha, -⟩ | ⟨-, hc⟩
      · rw [hatt] at ha
        simp at ha
      · exact hc
  · have hatt := hno h
    refine ⟨.Primary, ⟨by rw [hatt]; simp, fun hc => h hc.2⟩, ?_, ?_, ?_⟩
    · rintro s' ⟨hmem, -⟩
      rw [hatt] at hmem
      exact List.mem_singleton.mp hmem
    · rw [hatt]
      rfl
    · intro hsucc
      rcases hok hsucc with ⟨-, hc⟩ | ⟨ha, -⟩
      · exact hc
      · rw [hatt] at ha
        simp at ha

/-! ## Command-line splitting -/

theorem removeFlagsWithValues_cons_flag (av : List String) (a : String) (l : List String)
    (h : av.contains a = true) :
    removeFlagsWithValues av (a :: l) = removeFlagsWithValues av (l.drop 1) := by
  cases l <;> simp only [removeFlagsWithValues, h, if_true, Bool.false_eq_true, if_false,
    List.drop_nil, List.drop_succ_cons, List.drop_zero]

theorem removeFlagsWithValues_cons_keep (av : List String) (a : String) (l : List String)
    (h : av.contains a = false) :
    removeFlagsWithValues av (a :: l) = a :: removeFlagsWithValues av l := by
  cases l <;> simp only [removeFlagsWithValues, h, if_true, Bool.false_eq_true, if_false,
    List.drop_nil, List.drop_succ_cons, List.drop_zero]

theorem flagValues_cons_keep (av : List String) (a : String) (l : List String) (m : Arguments)
    (h : av.contains a = false) :
    flagValues av (a :: l) m = flagValues av l m := by
  cases l <;> simp only [flagValues, h, Bool.false_eq_true, if_false]

/-- The loop computes the two specification functions on the arguments from
index `i` on, whenever it is given at least `len(os.Args) - i` iterations. -/
theorem RetrievePluginArguments.loop_spec (osArgs av : List String) :
    ∀ (fuel i : Nat) (args : Arguments) (cmd : List String), osArgs.length - i ≤ fuel →
      RetrievePluginArguments.loop osArgs av fuel i args cmd
        = (flagValues av (osArgs.drop i) args,
           cmd ++ removeFlagsWithValues av (osArgs.drop i)) := by
  intro fuel
  induction fuel with
  | zero =>
    intro i args cmd hfuel
    have hnil : osArgs.drop i = [] := List.drop_eq_nil_of_le (by omega)
    simp [RetrievePluginArguments.loop, hnil, flagValues, removeFlagsWithValues]
  | succ fuel ih =>
    intro i args cmd hfuel
    unfold RetrievePluginArguments.loop
    by_cases h : i < osArgs.length
    · rw [dif_pos h, List.drop_eq_getElem_cons h]
      by_cases hc : av.contains osArgs[i] = true
      · rw [if_pos hc, ih (i + 1 + 1) _ _ (by omega),
          removeFlagsWithValues_cons_flag av _ _ hc, List.drop_drop]
        by_cases h1 : i + 1 ≥ osArgs.length
        · have hnil1 : osArgs.drop (i + 1) = [] := List.drop_eq_nil_of_le h1
          have hnil2 : osArgs.drop (i + 1 + 1) = [] := List.drop_eq_nil_of_le (by omega)
          simp only [h1, hnil1, hnil2, flagValues, hc, dif_pos, if_true, List.drop_nil]
        · have hlt : i + 1 < osArgs.length := by omega
          rw [List.drop_eq_getElem_cons hlt]
          simp only [h1, flagValues, hc, dif_neg, not_false_eq_true, if_true, List.drop_succ_cons,
            List.drop_zero]
      · have hc' : av.contains osArgs[i] = false := by simpa using hc
        rw [if_neg hc, ih (i + 1) _ _ (by omega), removeFlagsWithValues_cons_keep av _ _ hc',
          flagValues_cons_keep av _ _ _ hc']
        simp
    · have hnil : osArgs.drop i = [] := List.drop_eq_nil_of_le (by omega)
      rw [dif_neg h, hnil]
      simp [flagValues, removeFlagsWithValues]

/-- The bound on the number of iterations does not matter once it is at least
`len(os.Args) - i`: the loop always ends by its own exit test. -/
theorem RetrievePluginArguments.loop_fuel (osArgs av : List String) (fuel fuel' i : Nat)
    (args : Arguments) (cmd : List String)
    (h : osArgs.length - i ≤ fuel) (h' : osArgs.length - i ≤ fuel') :
    RetrievePluginArguments.loop osArgs av fuel i args cmd
      = RetrievePluginArguments.loop osArgs av fuel' i args cmd := by
  rw [RetrievePluginArguments.loop_spec osArgs av fuel i args cmd h,
    RetrievePluginArguments.loop_spec osArgs av fuel' i args cmd h']

theorem removeFlagsWithValues_props (av : List String) :
    ∀ (n : Nat) (l : List String), l.length ≤ n →
      (removeFlagsWithValues av l).Sublist l
        ∧ ∀ x ∈ removeFlagsWithValues av l, av.contains x = false := by
  intro n
  induction n with
  | zero =>
    intro l hl
    have : l = [] := List.length_eq_zero.mp (by omega)
    subst this
    simp [removeFlagsWithValues]
  | succ n ih =>
    intro l hl
    cases l with
    | nil => simp [removeFlagsWithValues]
    | cons a l =>
      have hl' : l.length ≤ n := by simpa using hl
      by_cases hc : av.contains a = true
      · rw [removeFlagsWithValues_cons_flag av a l hc]
        have hd : (l.drop 1).length ≤ n := by
          simp only [List.length_drop]
          omega
        obtain ⟨hsub, hmem⟩ := ih (l.drop 1) hd
        exact ⟨(hsub.trans (List.drop_sublist 1 l)).trans (List.sublist_cons_self a l), hmem⟩
      · have hc' : av.contains a = false := by simpa using hc
        rw [removeFlagsWithValues_cons_keep av a l hc']
        obtain ⟨hsub, hmem⟩ := ih l hl'
        refine ⟨hsub.cons₂ a, ?_⟩
        intro x hx
        rcases List.mem_cons.mp hx with rfl | hx
        · exact hc'
        · exact hmem x hx

/-- C10: when `os.Args` is `first :: tail` and `first` is not one of
`availableArguments`, the final slice `trivyCommand[1:]` does not panic, and
the returned `rest` is `tail` with every flag removed together with the element
right after it, scanning left to right; `rest` keeps the order of `tail` and
holds no element of `availableArguments`; the returned map gives each flag the
element right after it, or `""` when the flag is last. -/
theorem C10_rest_is_arguments_without_flags (osArgs availableArguments : List String)
    (first : String) (tail : List String)
    (hargs : osArgs = first :: tail) (hfirst : availableArguments.contains first = false) :
    ∃ pluginArgs rest,
      RetrievePluginArguments osArgs availableArguments = some (pluginArgs, rest)
      ∧ rest = removeFlagsWithValues availableArguments tail
      ∧ pluginArgs = flagValues availableArguments tail (fun _ => none)
      ∧ rest.Sublist tail
      ∧ ∀ x ∈ rest, availableArguments.contains x = false := by
  subst hargs
  obtain ⟨hsub, hmem⟩ := removeFlagsWithValues_props availableArguments tail.length tail
    (Nat.le_refl _)
  refine ⟨flagValues availableArguments tail (fun _ => none),
    removeFlagsWithValues availableArguments tail, ?_, rfl, rfl, hsub, hmem⟩
  unfold RetrievePluginArguments
  rw [RetrievePluginArguments.loop_spec (first :: tail) availableArguments _ 0 _ _ (by omega)]
  simp [removeFlagsWithValues_cons_keep availableArguments first tail hfirst,
    flagValues_cons_keep availableArguments first tail _ hfirst]

/-- C10 at a command line as `main` splits it, with the two flags of `main`:
the scanner command keeps `image` and `alpine` in order, and both flags get the
element after them as value. -/
theorem C10_witness :
    ∃ pluginArgs rest,
      RetrievePluginArguments
          ["trivy-plugin", "image", "--output", "o.json", "alpine", "--plugin-output", "p.out"]
          ["--plugin-output", "--output"] = some (pluginArgs, rest)
      ∧ rest = removeFlagsWithValues ["--plugin-output", "--output"]
          ["image", "--output", "o.json", "alpine", "--plugin-output", "p.out"]
      ∧ pluginArgs = flagValues ["--plugin-output", "--output"]
          ["image", "--output", "o.json", "alpine", "--plugin-output", "p.out"] (fun _ => none)
      ∧ rest.Sublist ["image", "--output", "o.json", "alpine", "--plugin-output", "p.out"]
      ∧ ∀ x ∈ rest, List.contains ["--plugin-output", "--output"] x = false :=
  C10_rest_is_arguments_without_flags
    ["trivy-plugin", "image", "--output", "o.json", "alpine", "--plugin-output", "p.out"]
    ["--plugin-output", "--output"] "trivy-plugin"
    ["image", "--output", "o.json", "alpine", "--plugin-output", "p.out"] rfl (by decide)

end TrivyPlugin
